import Mathlib

/-!
Verification development for the Plantendril2 application (Plantendril2.py).

The repository is a single-file quiz application over a spreadsheet of plant
records.  This file gives a shallow embedding of the pure computational core:

* the Python string helpers used by the code (strip, lower, join),
* the row transformations of load_planten_data (scientific-name derivation,
  family prefix on the note field, numeric coercion of the sequence number,
  drop of non-numeric rows, ascending sort),
* the filter pipeline of show_planten_driller,
* question initialisation (initialiseer_vraag) with its distractor-sampling
  loop, modelled against an explicit list of random draws,
* the multiple-choice answer handler and the free-text handler check_antwoord
  as functions on an explicit session-state record,
* the practice-mode cursor step.

Randomness is modelled by explicit parameters: the index of each sampled row,
the chosen question type, the list of draw indices consumed by the distractor
loop, and the shuffle function (assumed to permute its input).  The unbounded
while-loop of the distractor sampler is modelled by a function consuming a
finite list of draws; reaching three options within the supplied draws
corresponds to termination of the loop.  Spreadsheet cells are modelled as
Option values (none is a missing cell, the pandas NaN); numeric cells are
modelled with integers, matching the final astype int conversion of the code.
-/

/-! ## Python string primitives -/

/-- Whitespace test matching the Python str.strip default (ASCII whitespace). -/
def isPySpace (c : Char) : Bool :=
  c = ' ' || c = '\t' || c = '\n' || c = '\r' || c = '\x0b' || c = '\x0c'

/-- Strip leading and trailing whitespace from a list of characters. -/
def stripChars (l : List Char) : List Char :=
  ((l.dropWhile isPySpace).reverse.dropWhile isPySpace).reverse

/-- Model of the Python str.strip method. -/
def pyStrip (s : String) : String :=
  String.mk (stripChars s.data)

/-- Model of the Python str.lower method (character-wise lowering). -/
def pyLower (s : String) : String :=
  String.mk (s.data.map Char.toLower)

/-- Model of the Python sep.join method on a list of strings. -/
def pyJoin (sep : String) : List String → String
  | [] => ""
  | [s] => s
  | s :: rest => s ++ (sep ++ pyJoin sep (rest))

/-! ## Spreadsheet cells and rows -/

/-- A spreadsheet cell for the sequence-number column: missing (NaN), a number,
or arbitrary text.  Numbers are modelled as integers, matching the final
astype int conversion applied by the loader. -/
inductive Cell where
  | na : Cell
  | num : Int → Cell
  | text : String → Cell
deriving DecidableEq

/-- Model of pandas to_numeric with errors coerce: missing stays missing,
numbers pass through, text parses as an integer or becomes missing. -/
def toNumeric : Cell → Option Int
  | Cell.na => none
  | Cell.num n => some n
  | Cell.text s => s.toInt?

/-- A raw row of the Planten worksheet.  Cells playing no role in the claims
are omitted; none models a missing cell (NaN).  The flags list holds the
boolean category columns with their cell values. -/
structure RawRow where
  geslacht : Option String
  soort : Option String
  varieteit : Option String
  cultivar : Option String
  nederlandseNaam : Option String
  familie : Option String
  extraInfo : Option String
  nummer : Cell
  flags : List (String × Option String)
deriving DecidableEq

/-- Rendering of a possibly missing cell inside a Python f-string: a missing
value (NaN) prints as the text nan. -/
def pyFormatCell : Option String → String
  | some s => s
  | none => "nan"

/-! ## The scientific-name derivation (_combine_scientific_name) -/

/-- The parts list built by _combine_scientific_name: a part is appended
whenever the cell is non-null, regardless of emptiness. -/
def naamStukken (r : RawRow) : List String :=
  (match r.geslacht with
   | some g => [pyStrip g]
   | none => []) ++
  (match r.soort with
   | some s => [pyStrip s]
   | none => []) ++
  (match r.varieteit with
   | some v => ["var. " ++ pyStrip v]
   | none => []) ++
  (match r.cultivar with
   | some c => ["\x27" ++ pyStrip c ++ "\x27"]
   | none => [])

/-- Model of _combine_scientific_name: join the parts with single spaces and
strip the result. -/
def combine_scientific_name (r : RawRow) : String :=
  pyStrip (pyJoin " " (naamStukken r))

/-- Parts list following the words of the specification: of the four parts,
those that are present and non-empty. -/
def specNaamStukken (r : RawRow) : List String :=
  (naamStukken r).filter (fun s => decide (s ≠ ""))

/-- The scientific name as the specification words it: the space-joined
concatenation of the present and non-empty parts, with no outer strip. -/
def spec_scientific_name (r : RawRow) : String :=
  pyJoin " " (specNaamStukken r)

/-! ## The note-field transformation (_append_familie_to_extra_info) -/

/-- Model of _append_familie_to_extra_info.  The familie argument is rendered
through an f-string, so a missing familie prints as nan; a missing note yields
just the familie sentence. -/
def append_familie_to_extra_info (familie : Option String) (extraInfo : Option String) : String :=
  match extraInfo with
  | some e => "Familie: " ++ pyFormatCell familie ++ "." ++ " " ++ e
  | none => "Familie: " ++ pyFormatCell familie ++ "."

/-! ## The loader (load_planten_data) -/

/-- A row after loading: a derived scientific name, the renamed Dutch-name
column, the familie column, the transformed note field (always a string after
the transformation), the integer sequence number and the category flags. -/
structure LoadedRow where
  wetenschappelijkeNaam : String
  nederlands : Option String
  familie : Option String
  extraInfo : String
  nummer : Int
  flags : List (String × Option String)
deriving DecidableEq

/-- The per-row transformation of load_planten_data, given the coerced
sequence number. -/
def transformRow (r : RawRow) (n : Int) : LoadedRow :=
  { wetenschappelijkeNaam := combine_scientific_name r
    nederlands := r.nederlandseNaam
    familie := r.familie
    extraInfo := append_familie_to_extra_info r.familie r.extraInfo
    nummer := n
    flags := r.flags }

/-- Ascending order on the sequence-number column. -/
def nummerLe (a b : LoadedRow) : Prop := a.nummer ≤ b.nummer

instance : DecidableRel nummerLe := fun a b => Int.decLe a.nummer b.nummer

instance : IsTotal LoadedRow nummerLe := ⟨fun a b => Int.le_total a.nummer b.nummer⟩

instance : IsTrans LoadedRow nummerLe := ⟨fun _ _ _ h h2 => Int.le_trans h h2⟩

/-- Model of load_planten_data: derive the computed columns, coerce the
sequence number, silently drop rows where that fails, and sort ascending by
sequence number. -/
def load_planten_data (rows : List RawRow) : List LoadedRow :=
  List.insertionSort nummerLe
    (rows.filterMap (fun r => (toNumeric r.nummer).map (transformRow r)))

/-! ## The filter pipeline (show_planten_driller, lines 249 to 253) -/

/-- Test whether the cell of a category column holds the literal marker x,
the test performed by the comparison with the string x in the code. -/
def heeftMarkering (l : LoadedRow) (kolom : String) : Bool :=
  decide (l.flags.lookup kolom = some (some "x"))

/-- The category filter branch of the pipeline. -/
def filterCategorie (rows : List LoadedRow) (kolom : String) : List LoadedRow :=
  rows.filter (fun l => heeftMarkering l kolom)

/-- The family filter branch of the pipeline. -/
def filterFamilie (rows : List LoadedRow) (fam : String) : List LoadedRow :=
  rows.filter (fun l => decide (l.familie = some fam))

/-- The two-stage filter of show_planten_driller: the category filter applies
unless the sentinel Alle planten is chosen, then the family filter applies
unless the sentinel Alle is chosen. -/
def applyFilters (rows : List LoadedRow) (kolomKeuze famKeuze : String) : List LoadedRow :=
  let f1 := if kolomKeuze = "Alle planten" then rows else filterCategorie rows kolomKeuze
  if famKeuze = "Alle" then f1 else filterFamilie f1 famKeuze

/-! ## Question initialisation (initialiseer_vraag) -/

/-- Explicit randomness consumed by one question initialisation: the index of
the sampled plant, the coin for the question type (true is the Dutch-name
question), the row indices drawn by the distractor loop, and the shuffle
applied to the finished option list. -/
structure Randomness where
  selIdx : Nat
  vraagtypeNL : Bool
  draws : List Nat
  shuffle : List String → List String

/-- The candidate value column queried by a question: the Dutch names or the
scientific names of the filtered list.  A missing Dutch name renders as nan,
as it does inside the Python f-strings and answers. -/
def kandidaatNamen (lijst : List LoadedRow) (vraagtypeNL : Bool) : List String :=
  if vraagtypeNL then lijst.map (fun l => pyFormatCell l.nederlands)
  else lijst.map (fun l => l.wetenschappelijkeNaam)

/-- The distractor loop of initialiseer_vraag, consuming an explicit list of
draw indices: while fewer than three options are collected, draw a row, keep
its name only when it differs from every option collected so far.  Running out
of draws before reaching three options models the loop still running. -/
def vulOpties (namen : List String) (draws : List Nat) (opties : List String) : List String :=
  match draws with
  | [] => opties
  | d :: rest =>
    if 3 ≤ opties.length then opties
    else
      match namen.get? d with
      | none => vulOpties namen rest opties
      | some distractor =>
        if distractor ∈ opties then vulOpties namen rest opties
        else vulOpties namen rest (opties ++ [distractor])

/-- The question record stored in the session state by initialiseer_vraag. -/
structure VraagState where
  geselecteerde_plant : LoadedRow
  vraagtypeNL : Bool
  vraag : String
  opties : List String
  juiste_antwoord : String
deriving DecidableEq

/-- Model of initialiseer_vraag.  It returns none when the sampled index is
out of range (sampling an empty frame raises) or when the distractor loop has
not reached three options within the supplied draws (the unbounded loop is
still running). -/
def initialiseer_vraag (lijst : List LoadedRow) (r : Randomness) : Option VraagState :=
  match lijst.get? r.selIdx with
  | none => none
  | some p =>
    let juiste :=
      if r.vraagtypeNL then pyFormatCell p.nederlands else p.wetenschappelijkeNaam
    let vraag :=
      if r.vraagtypeNL then
        "Wat is de Nederlandse naam van \x27<i>" ++ p.wetenschappelijkeNaam ++ "</i>\x27?"
      else
        "Wat is de wetenschappelijke naam van \x27" ++ pyFormatCell p.nederlands ++ "\x27?"
    let opties := vulOpties (kandidaatNamen lijst r.vraagtypeNL) r.draws [juiste]
    if opties.length = 3 then
      some
        { geselecteerde_plant := p
          vraagtypeNL := r.vraagtypeNL
          vraag := vraag
          opties := "Selecteer een optie" :: r.shuffle opties
          juiste_antwoord := juiste }
    else none

/-! ## Session state and the answer handlers -/

/-- The session-state fields manipulated by the quiz modes. -/
structure SessionState where
  correcte_antwoorden : Nat
  beantwoord : Bool
  gekozen_optie : String
  radiobutton_disabled : Bool
  expert_input : String
  vraagState : Option VraagState
deriving DecidableEq

/-- The session-state update performed by a successful initialiseer_vraag
call: store the new question and reset the per-question flags, as in the
st.session_state.update dictionary of the code. -/
def applyInit (lijst : List LoadedRow) (r : Randomness) (st : SessionState) :
    Option SessionState :=
  (initialiseer_vraag lijst r).map (fun v =>
    { st with
        vraagState := some v
        beantwoord := false
        gekozen_optie := "Selecteer een optie"
        radiobutton_disabled := false })

/-- The answer branch of quiz_multiple_choice (lines 135 to 144): when a real
option is selected and the question is unanswered, disable the radio group,
increment the streak on an exact match or reset it to zero, and mark the
question answered.  Otherwise the state is unchanged. -/
def beantwoord_mc (gebruikersantwoord : String) (st : SessionState) : SessionState :=
  match st.vraagState with
  | none => st
  | some v =>
    if gebruikersantwoord ≠ "Selecteer een optie" ∧ st.beantwoord = false then
      { st with
          radiobutton_disabled := true
          correcte_antwoorden :=
            if gebruikersantwoord = v.juiste_antwoord then st.correcte_antwoorden + 1
            else 0
          beantwoord := true }
    else st

/-- Model of check_antwoord in expert_mode (lines 170 to 182): normalise the
typed answer and the correct answer by strip and lower, update the streak,
set the answered flag, clear the input, clear the answered flag again, and
initialise the next question in the same step. -/
def check_antwoord (lijst : List LoadedRow) (r : Randomness) (st : SessionState) :
    Option SessionState :=
  match st.vraagState with
  | none => none
  | some v =>
    let gebruikersantwoord := pyLower (pyStrip st.expert_input)
    let juiste_norm := pyLower (pyStrip v.juiste_antwoord)
    let st1 :=
      if gebruikersantwoord = juiste_norm then
        { st with correcte_antwoorden := st.correcte_antwoorden + 1 }
      else
        { st with correcte_antwoorden := 0 }
    let st2 := { st1 with beantwoord := true }
    let st3 := { st2 with expert_input := "" }
    let st4 := { st3 with beantwoord := false }
    applyInit lijst r st4

/-! ## Practice-mode navigation (oefen_planten) -/

/-- The Volgende plant button of practice mode: step the cursor forward, or
wrap to the first entry when the cursor sits on the last one. -/
def volgende_plant (totaal : Nat) (idx : Nat) : Nat :=
  if idx < totaal - 1 then idx + 1 else 0

/-! ## Streak runs over the multiple-choice state machine -/

/-- A placeholder plant row used to build concrete question states. -/
def dummyRow : LoadedRow :=
  { wetenschappelijkeNaam := ""
    nederlands := none
    familie := none
    extraInfo := ""
    nummer := 0
    flags := [] }

/-- A fresh multiple-choice session state holding a question with the given
correct answer and the given running streak. -/
def mcVraagStaat (juiste : String) (streak : Nat) : SessionState :=
  { correcte_antwoorden := streak
    beantwoord := false
    gekozen_optie := "Selecteer een optie"
    radiobutton_disabled := false
    expert_input := ""
    vraagState := some
      { geselecteerde_plant := dummyRow
        vraagtypeNL := true
        vraag := ""
        opties := ["Selecteer een optie"]
        juiste_antwoord := juiste } }

/-- Running streak values over a sequence of answered questions, each given as
a pair of the selected option and the correct answer, driven through the
multiple-choice answer handler. -/
def mcStreakRunAux (streak : Nat) : List (String × String) → List Nat
  | [] => []
  | (g, j) :: rest =>
    let s2 := (beantwoord_mc g (mcVraagStaat j streak)).correcte_antwoorden
    s2 :: mcStreakRunAux s2 rest

/-- Running streak values starting from a zero streak. -/
def mcStreakRun (antwoorden : List (String × String)) : List Nat :=
  mcStreakRunAux 0 antwoorden

/-! ## Properties of the distractor loop -/

lemma vulOpties_append (namen : List String) (draws : List Nat) (opties : List String) :
    ∃ t, vulOpties namen draws opties = opties ++ t := by
  induction draws generalizing opties with
  | nil => exact ⟨[], by simp [vulOpties]⟩
  | cons d rest ih =>
    by_cases h3 : 3 ≤ opties.length
    · exact ⟨[], by simp [vulOpties, h3]⟩
    · cases hg : namen[d]? with
      | none =>
        obtain ⟨t, ht⟩ := ih opties
        exact ⟨t, by simp [vulOpties, h3, List.get?_eq_getElem?, hg, ht]⟩
      | some a =>
        by_cases hmem : a ∈ opties
        · obtain ⟨t, ht⟩ := ih opties
          exact ⟨t, by simp [vulOpties, h3, List.get?_eq_getElem?, hg, hmem, ht]⟩
        · obtain ⟨t, ht⟩ := ih (opties ++ [a])
          refine ⟨[a] ++ t, ?_⟩
          simp only [vulOpties, h3, List.get?_eq_getElem?, hg, hmem, if_false, ite_false]
          simp [ht, List.append_assoc]

lemma vulOpties_nodup (namen : List String) (draws : List Nat) (opties : List String)
    (h : opties.Nodup) : (vulOpties namen draws opties).Nodup := by
  induction draws generalizing opties with
  | nil => simpa [vulOpties] using h
  | cons d rest ih =>
    by_cases h3 : 3 ≤ opties.length
    · simpa [vulOpties, h3] using h
    · cases hg : namen[d]? with
      | none => simpa [vulOpties, h3, List.get?_eq_getElem?, hg] using ih opties h
      | some a =>
        by_cases hmem : a ∈ opties
        · simpa [vulOpties, h3, List.get?_eq_getElem?, hg, hmem] using ih opties h
        · have hcat : (opties ++ [a]).Nodup := by
            rw [← List.concat_eq_append]
            exact List.Nodup.concat hmem h
          simpa [vulOpties, h3, List.get?_eq_getElem?, hg, hmem] using ih (opties ++ [a]) hcat

lemma vulOpties_subset (namen : List String) (draws : List Nat) (opties : List String)
    (h : ∀ x ∈ opties, x ∈ namen) :
    ∀ x ∈ vulOpties namen draws opties, x ∈ namen := by
  induction draws generalizing opties with
  | nil => simpa [vulOpties] using h
  | cons d rest ih =>
    by_cases h3 : 3 ≤ opties.length
    · simpa [vulOpties, h3] using h
    · cases hg : namen[d]? with
      | none => simpa [vulOpties, h3, List.get?_eq_getElem?, hg] using ih opties h
      | some a =>
        by_cases hmem : a ∈ opties
        · simpa [vulOpties, h3, List.get?_eq_getElem?, hg, hmem] using ih opties h
        · have hcat : ∀ x ∈ opties ++ [a], x ∈ namen := by
            intro x hx
            rcases List.mem_append.mp hx with hx | hx
            · exact h x hx
            · rcases List.mem_singleton.mp hx with rfl
              exact List.get?_mem (by rw [List.get?_eq_getElem?]; exact hg)
          simpa [vulOpties, h3, List.get?_eq_getElem?, hg, hmem] using ih (opties ++ [a]) hcat

/-- A duplicate-free list drawn from the elements of another list is no longer
than the count of distinct values of that list. -/
lemma nodup_length_le_dedup (l m : List String) (hn : l.Nodup)
    (hsub : ∀ x ∈ l, x ∈ m) : l.length ≤ m.dedup.length := by
  have h1 : l.toFinset.card = l.length := List.toFinset_card_of_nodup hn
  have h2 : l.toFinset ⊆ m.toFinset := by
    intro x hx
    exact List.mem_toFinset.mpr (hsub x (List.mem_toFinset.mp hx))
  have h3 := Finset.card_le_card h2
  rw [h1, List.card_toFinset] at h3
  exact h3

/-- Draw indices that make the distractor loop finish whenever the candidate
column holds at least three distinct values: the positions of the first two
distinct values differing from the correct answer. -/
def goedeDraws (namen : List String) (juiste : String) : List Nat :=
  let e := (namen.dedup).erase juiste
  [namen.indexOf (e.getD 0 ""), namen.indexOf (e.getD 1 "")]

/-! ## Claim C1 -/

/-- Claim C1: for a filtered plant set with at least three distinct candidate
values, a completed question initialisation stores an option list consisting
of the leading placeholder sentinel followed by exactly three pairwise
distinct entries, among them the correct answer, all drawn from the candidate
values of the same filtered set, in the shuffled order. -/
theorem C1_optielijst_structuur (lijst : List LoadedRow) (r : Randomness) (v : VraagState)
    (hshuffle : ∀ l : List String, List.Perm (r.shuffle l) l)
    (hdistinct : 3 ≤ (kandidaatNamen lijst r.vraagtypeNL).dedup.length)
    (hinit : initialiseer_vraag lijst r = some v) :
    v.opties.head? = some "Selecteer een optie" ∧
    v.opties.tail.length = 3 ∧
    v.opties.tail.Nodup ∧
    v.juiste_antwoord ∈ v.opties.tail ∧
    v.opties.tail ⊆ kandidaatNamen lijst r.vraagtypeNL := by
  cases hp : lijst[r.selIdx]? with
  | none => simp [initialiseer_vraag, List.get?_eq_getElem?, hp] at hinit
  | some p =>
    have hpmem : p ∈ lijst :=
      List.get?_mem (by rw [List.get?_eq_getElem?]; exact hp)
    simp only [initialiseer_vraag, List.get?_eq_getElem?, hp] at hinit
    set J : String :=
      if r.vraagtypeNL then pyFormatCell p.nederlands else p.wetenschappelijkeNaam with hJ
    set O : List String := vulOpties (kandidaatNamen lijst r.vraagtypeNL) r.draws [J] with hO
    have hJmem : J ∈ kandidaatNamen lijst r.vraagtypeNL := by
      by_cases hb : r.vraagtypeNL
      · simp only [hJ, kandidaatNamen, hb, if_true]
        exact List.mem_map_of_mem (fun l => pyFormatCell l.nederlands) hpmem
      · simp only [hJ, kandidaatNamen, hb, if_false]
        exact List.mem_map_of_mem (fun l => l.wetenschappelijkeNaam) hpmem
    by_cases hlen : O.length = 3
    · rw [if_pos hlen, Option.some_inj] at hinit
      subst hinit
      have hperm : List.Perm (r.shuffle O) O := hshuffle O
      refine ⟨rfl, ?_, ?_, ?_, ?_⟩
      · simpa using hperm.length_eq.trans hlen
      · exact hperm.nodup_iff.mpr (vulOpties_nodup _ _ _ (List.nodup_singleton J))
      · obtain ⟨t, ht⟩ := vulOpties_append (kandidaatNamen lijst r.vraagtypeNL) r.draws [J]
        have : J ∈ O := by
          rw [hO, ht]
          exact List.mem_append_left _ (List.mem_singleton_self J)
        simpa using hperm.mem_iff.mpr this
      · intro x hx
        have hxO : x ∈ O := hperm.mem_iff.mp (by simpa using hx)
        refine vulOpties_subset _ _ _ ?_ x hxO
        intro y hy
        rcases List.mem_singleton.mp hy with rfl
        exact hJmem
    · rw [if_neg hlen] at hinit
      exact absurd hinit (by simp)

/-- Rows used by the concrete witnesses below. -/
def wRij (w n : String) (num : Int) : LoadedRow :=
  { wetenschappelijkeNaam := w
    nederlands := some n
    familie := some "Rosaceae"
    extraInfo := ""
    nummer := num
    flags := [("Boom", some "x")] }

/-- A concrete filtered list with three plants and distinct names. -/
def wLijst : List LoadedRow :=
  [wRij "Quercus robur" "zomereik" 1, wRij "Acer campestre" "veldesdoorn" 2,
   wRij "Fagus sylvatica" "beuk" 3]

/-- Concrete randomness: first plant, Dutch-name question, distractor draws
hitting the second and third rows, identity shuffle. -/
def wRand : Randomness :=
  { selIdx := 0, vraagtypeNL := true, draws := [1, 2], shuffle := fun l => l }

/-- The question state produced on the concrete witness input. -/
def wV : VraagState :=
  (initialiseer_vraag wLijst wRand).getD
    { geselecteerde_plant := dummyRow
      vraagtypeNL := true
      vraag := ""
      opties := []
      juiste_antwoord := "" }

theorem C1_optielijst_structuur_witness :
    wV.opties.head? = some "Selecteer een optie" ∧
    wV.opties.tail.length = 3 ∧
    wV.opties.tail.Nodup ∧
    wV.juiste_antwoord ∈ wV.opties.tail ∧
    wV.opties.tail ⊆ kandidaatNamen wLijst wRand.vraagtypeNL :=
  C1_optielijst_structuur wLijst wRand wV (fun l => List.Perm.refl l) (by decide) (by decide)

/-! ## Claim C5 -/

/-- Claim C5: the distractor-sampling loop, embedded as a total function over
an explicit list of draws, reaches the full option count for the explicitly
constructed draw list whenever the queried column holds at least three
distinct values; with fewer than three distinct values no draw list ever
finishes the loop, so the loop is unbounded. -/
theorem C5_distractor_terminatie (namen : List String) (juiste : String)
    (hj : juiste ∈ namen) :
    (3 ≤ namen.dedup.length →
      (vulOpties namen (goedeDraws namen juiste) [juiste]).length = 3) ∧
    (namen.dedup.length < 3 →
      ∀ draws : List Nat, (vulOpties namen draws [juiste]).length < 3) := by
  constructor
  · intro h3
    have hjd : juiste ∈ namen.dedup := List.mem_dedup.mpr hj
    have hlen : (namen.dedup.erase juiste).length = namen.dedup.length - 1 :=
      List.length_erase_of_mem hjd
    have hnd : (namen.dedup.erase juiste).Nodup := (List.nodup_dedup namen).erase juiste
    have hne : juiste ∉ namen.dedup.erase juiste :=
      List.Nodup.not_mem_erase (List.nodup_dedup namen)
    obtain ⟨a, b, t, he⟩ : ∃ a b t, namen.dedup.erase juiste = a :: b :: t := by
      rcases h : namen.dedup.erase juiste with _ | ⟨a, _ | ⟨b, t⟩⟩
      · rw [h] at hlen
        simp at hlen
        omega
      · rw [h] at hlen
        simp at hlen
        omega
      · exact ⟨a, b, t, rfl⟩
    have haE : a ∈ namen.dedup.erase juiste := by
      rw [he]
      exact List.mem_cons_self a _
    have hbE : b ∈ namen.dedup.erase juiste := by
      rw [he]
      exact List.mem_cons_of_mem a (List.mem_cons_self b t)
    have hamem : a ∈ namen := List.mem_dedup.mp (List.mem_of_mem_erase haE)
    have hbmem : b ∈ namen := List.mem_dedup.mp (List.mem_of_mem_erase hbE)
    have haj : a ≠ juiste := fun hcontra => hne (hcontra ▸ haE)
    have hbj : b ≠ juiste := fun hcontra => hne (hcontra ▸ hbE)
    have hba : b ≠ a := by
      rw [he] at hnd
      rcases List.nodup_cons.mp hnd with ⟨hna, _⟩
      intro hcontra
      exact hna (hcontra ▸ List.mem_cons_self b t)
    have hdraws : goedeDraws namen juiste = [namen.indexOf a, namen.indexOf b] := by
      simp [goedeDraws, he]
    have hga : namen[namen.indexOf a]? = some a := by
      have hlt := List.indexOf_lt_length.mpr hamem
      rw [List.getElem?_eq_getElem hlt, List.getElem_indexOf hlt]
    have hgb : namen[namen.indexOf b]? = some b := by
      have hlt := List.indexOf_lt_length.mpr hbmem
      rw [List.getElem?_eq_getElem hlt, List.getElem_indexOf hlt]
    rw [hdraws]
    simp [vulOpties, List.get?_eq_getElem?, hga, hgb, haj, hbj, hba]
  · intro hlt draws
    have hnodup := vulOpties_nodup namen draws [juiste] (List.nodup_singleton juiste)
    have hsub : ∀ x ∈ vulOpties namen draws [juiste], x ∈ namen := by
      refine vulOpties_subset namen draws [juiste] ?_
      intro y hy
      rcases List.mem_singleton.mp hy with rfl
      exact hj
    exact lt_of_le_of_lt (nodup_length_le_dedup _ _ hnodup hsub) hlt

theorem C5_distractor_terminatie_witness :
    (vulOpties ["a", "b", "c"] (goedeDraws ["a", "b", "c"] "a") ["a"]).length = 3 ∧
    (vulOpties ["a", "a"] [0, 1] ["a"]).length < 3 :=
  ⟨(C5_distractor_terminatie ["a", "b", "c"] "a" (by decide)).1 (by decide),
   (C5_distractor_terminatie ["a", "a"] "a" (by decide)).2 (by decide) [0, 1]⟩

/-! ## Claim C2: supporting lemmas on stripped strings and joins -/

lemma dropWhile_eq_self_of_head (p : Char → Bool) (l : List Char)
    (h : ∀ c, l.head? = some c → p c = false) : l.dropWhile p = l := by
  cases l with
  | nil => rfl
  | cons c t => simp [List.dropWhile_cons, h c rfl]

lemma head?_dropWhile_false (p : Char → Bool) (l : List Char) :
    ∀ c, (l.dropWhile p).head? = some c → p c = false := by
  induction l with
  | nil =>
    intro c hc
    simp at hc
  | cons a t ih =>
    intro c hc
    by_cases hp : p a
    · rw [List.dropWhile_cons, if_pos hp] at hc
      exact ih c hc
    · rw [List.dropWhile_cons, if_neg hp] at hc
      simp only [List.head?_cons, Option.some_inj] at hc
      subst hc
      simpa using hp

lemma getLast?_dropWhile (p : Char → Bool) (l : List Char)
    (h : l.dropWhile p ≠ []) : (l.dropWhile p).getLast? = l.getLast? := by
  induction l with
  | nil => simp at h
  | cons a t ih =>
    by_cases hp : p a
    · rw [List.dropWhile_cons, if_pos hp] at h ⊢
      have ht : t ≠ [] := by
        intro hteq
        rw [hteq] at h
        simp at h
      rw [ih h]
      cases t with
      | nil => exact absurd rfl ht
      | cons b u => rw [List.getLast?_cons_cons]
    · rw [List.dropWhile_cons, if_neg hp]

/-- Strings that are non-empty and hold no whitespace at either end. -/
def schoon (s : String) : Prop :=
  s.data ≠ [] ∧
  (∀ c, s.data.head? = some c → isPySpace c = false) ∧
  (∀ c, s.data.getLast? = some c → isPySpace c = false)

lemma stripChars_eq_self (l : List Char)
    (hh : ∀ c, l.head? = some c → isPySpace c = false)
    (hl : ∀ c, l.getLast? = some c → isPySpace c = false) :
    stripChars l = l := by
  unfold stripChars
  rw [dropWhile_eq_self_of_head _ _ hh]
  have hrev : l.reverse.dropWhile isPySpace = l.reverse :=
    dropWhile_eq_self_of_head _ _ (fun c hc => hl c (by rwa [List.head?_reverse] at hc))
  rw [hrev, List.reverse_reverse]

lemma pyStrip_eq_self (s : String) (h : schoon s) : pyStrip s = s := by
  obtain ⟨-, hh, hl⟩ := h
  rw [pyStrip, stripChars_eq_self s.data hh hl]

lemma pyStrip_head (s : String) :
    ∀ c, (pyStrip s).data.head? = some c → isPySpace c = false := by
  intro c hc
  have hc2 : ((s.data.dropWhile isPySpace).reverse.dropWhile isPySpace).getLast? = some c := by
    simpa [pyStrip, stripChars, List.head?_reverse] using hc
  have hne : (s.data.dropWhile isPySpace).reverse.dropWhile isPySpace ≠ [] := by
    intro h0
    rw [h0] at hc2
    simp at hc2
  rw [getLast?_dropWhile _ _ hne, List.getLast?_reverse] at hc2
  exact head?_dropWhile_false _ _ c hc2

lemma pyStrip_last (s : String) :
    ∀ c, (pyStrip s).data.getLast? = some c → isPySpace c = false := by
  intro c hc
  have hc2 : ((s.data.dropWhile isPySpace).reverse.dropWhile isPySpace).head? = some c := by
    simpa [pyStrip, stripChars, List.getLast?_reverse] using hc
  exact head?_dropWhile_false _ _ c hc2

lemma data_ne_nil_of_ne_empty (s : String) (h : s ≠ "") : s.data ≠ [] := by
  intro hd
  apply h
  have := congrArg String.mk hd
  simpa using this

lemma ne_empty_of_data_ne_nil (s : String) (h : s.data ≠ []) : s ≠ "" := by
  intro h0
  rw [h0] at h
  exact h rfl

lemma schoon_pyStrip (s : String) (h : pyStrip s ≠ "") : schoon (pyStrip s) :=
  ⟨data_ne_nil_of_ne_empty _ h, pyStrip_head s, pyStrip_last s⟩

lemma append_ne_empty_left (a b : String) (ha : a.data ≠ []) : a ++ b ≠ "" := by
  intro h
  have hd := congrArg String.data h
  rw [String.data_append] at hd
  have hnil : a.data ++ b.data = [] := by simpa using hd
  exact ha (List.append_eq_nil.mp hnil).1

lemma schoon_var_stuk (v : String) (h : pyStrip v ≠ "") : schoon ("var. " ++ pyStrip v) := by
  refine ⟨data_ne_nil_of_ne_empty _ (append_ne_empty_left _ _ (by decide)), ?_, ?_⟩
  · intro c hc
    rw [String.data_append] at hc
    rw [List.head?_append_of_ne_nil _ (by decide)] at hc
    have : c = 'v' := by
      have : "var. ".data.head? = some 'v' := by decide
      rw [this] at hc
      exact (Option.some_inj.mp hc).symm
    subst this
    decide
  · intro c hc
    rw [String.data_append] at hc
    rw [List.getLast?_append_of_ne_nil _ (data_ne_nil_of_ne_empty _ h)] at hc
    exact pyStrip_last v c hc

lemma schoon_citaat_stuk (s : String) : schoon ("\x27" ++ s ++ "\x27") := by
  refine ⟨?_, ?_, ?_⟩
  · apply data_ne_nil_of_ne_empty
    apply append_ne_empty_left ("\x27" ++ s) "\x27"
    rw [String.data_append]
    intro hd
    exact absurd (List.append_eq_nil.mp hd).1 (by decide)
  · intro c hc
    rw [String.data_append, String.data_append] at hc
    have h1 : "\x27".data ++ s.data ≠ [] := by
      intro hnil
      exact absurd (List.append_eq_nil.mp hnil).1 (by decide)
    rw [List.head?_append_of_ne_nil _ h1] at hc
    have hq : "\x27".data.head? = some '\x27' := by decide
    rw [List.head?_append_of_ne_nil _ (by decide), hq] at hc
    have : c = '\x27' := (Option.some_inj.mp hc).symm
    subst this
    decide
  · intro c hc
    rw [String.data_append] at hc
    rw [List.getLast?_append_of_ne_nil _ (by decide)] at hc
    have hq : "\x27".data.getLast? = some '\x27' := by decide
    rw [hq] at hc
    have : c = '\x27' := (Option.some_inj.mp hc).symm
    subst this
    decide

lemma schoon_pyJoin (ps : List String) (hps : ps ≠ [])
    (h : ∀ s ∈ ps, schoon s) : schoon (pyJoin " " ps) := by
  induction ps with
  | nil => exact absurd rfl hps
  | cons s rest ih =>
    cases rest with
    | nil => exact h s (List.mem_singleton_self s)
    | cons b u =>
      have hrest : schoon (pyJoin " " (b :: u)) :=
        ih (List.cons_ne_nil b u) (fun x hx => h x (List.mem_cons_of_mem s hx))
      have hs : schoon s := h s (List.mem_cons_self s _)
      have hjoin : pyJoin " " (s :: b :: u) = s ++ (" " ++ pyJoin " " (b :: u)) := rfl
      have hdata : (pyJoin " " (s :: b :: u)).data =
          s.data ++ (' ' :: (pyJoin " " (b :: u)).data) := by
        rw [hjoin, String.data_append, String.data_append]
        rfl
      refine ⟨?_, ?_, ?_⟩
      · rw [hdata]
        intro hnil
        exact hs.1 (List.append_eq_nil.mp hnil).1
      · intro c hc
        rw [hdata, List.head?_append_of_ne_nil _ hs.1] at hc
        exact hs.2.1 c hc
      · intro c hc
        rw [hdata,
            List.getLast?_append_of_ne_nil _ (List.cons_ne_nil ' ' _)] at hc
        have hcons : (' ' :: (pyJoin " " (b :: u)).data) =
            [' '] ++ (pyJoin " " (b :: u)).data := rfl
        rw [hcons, List.getLast?_append_of_ne_nil _ hrest.1] at hc
        exact hrest.2.2 c hc

lemma pyStrip_pyJoin_eq (ps : List String) (h : ∀ s ∈ ps, schoon s) :
    pyStrip (pyJoin " " ps) = pyJoin " " ps := by
  cases ps with
  | nil => decide
  | cons s rest =>
    exact pyStrip_eq_self _ (schoon_pyJoin (s :: rest) (List.cons_ne_nil s rest) h)

/-! ## Claim C2: statements -/

/-- A field is acceptable when it is absent, or present with a non-blank
value after stripping. -/
def veldOk : Option String → Bool
  | none => true
  | some s => decide (pyStrip s ≠ "")

/-- Every present name field strips to a non-empty value. -/
def velden_aanwezig_niet_leeg (r : RawRow) : Prop :=
  veldOk r.geslacht = true ∧ veldOk r.soort = true ∧
  veldOk r.varieteit = true ∧ veldOk r.cultivar = true

lemma veldOk_some (s : String) (h : veldOk (some s) = true) : pyStrip s ≠ "" :=
  of_decide_eq_true h

/-- The row refuting claim C2 as stated: the species cell is present but
empty, so the code inserts an empty part and produces a double space, while
the claimed join of the non-empty parts does not. -/
def rC2 : RawRow :=
  { geslacht := some "Acer"
    soort := some ""
    varieteit := none
    cultivar := some "Chic"
    nederlandseNaam := none
    familie := none
    extraInfo := none
    nummer := Cell.na
    flags := [] }

/-- Claim C2 as stated fails: on a row whose species cell is present but
empty, the derived name issued by the code differs from the space-joined
concatenation of the present and non-empty parts. -/
theorem C2_tegenvoorbeeld : combine_scientific_name rC2 ≠ spec_scientific_name rC2 := by
  decide

/-- Claim C2, amended: for every input row each of whose present name fields
strips to a non-empty value, the derived scientific-name string equals the
space-joined concatenation, in order, of the present parts: genus, species,
var. plus variety, and the cultivar wrapped in single quotes. -/
theorem C2_wetenschappelijke_naam (r : RawRow) (h : velden_aanwezig_niet_leeg r) :
    combine_scientific_name r = spec_scientific_name r := by
  obtain ⟨hg, hs, hv, hc⟩ := h
  have hschoon : ∀ s ∈ naamStukken r, schoon s := by
    intro s hsmem
    rw [naamStukken] at hsmem
    rcases List.mem_append.mp hsmem with hsmem | hcul
    rcases List.mem_append.mp hsmem with hsmem | hvar
    rcases List.mem_append.mp hsmem with hgen | hsoo
    · cases hge : r.geslacht with
      | none =>
        rw [hge] at hgen
        simp at hgen
      | some g =>
        rw [hge] at hgen hg
        rcases List.mem_singleton.mp hgen with rfl
        exact schoon_pyStrip g (veldOk_some g hg)
    · cases hso : r.soort with
      | none =>
        rw [hso] at hsoo
        simp at hsoo
      | some so =>
        rw [hso] at hsoo hs
        rcases List.mem_singleton.mp hsoo with rfl
        exact schoon_pyStrip so (veldOk_some so hs)
    · cases hvr : r.varieteit with
      | none =>
        rw [hvr] at hvar
        simp at hvar
      | some va =>
        rw [hvr] at hvar hv
        rcases List.mem_singleton.mp hvar with rfl
        exact schoon_var_stuk va (veldOk_some va hv)
    · cases hcv : r.cultivar with
      | none =>
        rw [hcv] at hcul
        simp at hcul
      | some cu =>
        rw [hcv] at hcul
        rcases List.mem_singleton.mp hcul with rfl
        exact schoon_citaat_stuk (pyStrip cu)
  have hstukken : specNaamStukken r = naamStukken r := by
    rw [specNaamStukken]
    rw [List.filter_eq_self]
    intro a ha
    exact decide_eq_true (ne_empty_of_data_ne_nil a (hschoon a ha).1)
  rw [combine_scientific_name, spec_scientific_name, hstukken]
  exact pyStrip_pyJoin_eq _ hschoon

/-- A well-formed row used to witness the amended claim C2. -/
def rC2w : RawRow :=
  { geslacht := some "Quercus"
    soort := some "robur"
    varieteit := none
    cultivar := none
    nederlandseNaam := some "zomereik"
    familie := some "Fagaceae"
    extraInfo := some "Bloeit in mei."
    nummer := Cell.num 1
    flags := [] }

theorem C2_wetenschappelijke_naam_witness :
    combine_scientific_name rC2w = spec_scientific_name rC2w :=
  C2_wetenschappelijke_naam rC2w ⟨by decide, by decide, by decide, by decide⟩

/-! ## Claims C3, C4, C10: the answer handlers -/

/-- Field-level description of one check_antwoord step: the streak follows the
normalised comparison, the input is cleared, the answered flag ends false and
the stored question is the freshly initialised one. -/
lemma check_antwoord_velden (lijst : List LoadedRow) (r : Randomness)
    (st st2 : SessionState) (v : VraagState)
    (hv : st.vraagState = some v)
    (hcheck : check_antwoord lijst r st = some st2) :
    st2.correcte_antwoorden =
      (if pyLower (pyStrip st.expert_input) = pyLower (pyStrip v.juiste_antwoord)
       then st.correcte_antwoorden + 1 else 0) ∧
    st2.expert_input = "" ∧
    st2.beantwoord = false ∧
    st2.vraagState = initialiseer_vraag lijst r := by
  simp only [check_antwoord, hv] at hcheck
  by_cases hm : pyLower (pyStrip st.expert_input) = pyLower (pyStrip v.juiste_antwoord)
  · rw [if_pos hm] at hcheck
    rw [if_pos hm]
    cases hi : initialiseer_vraag lijst r with
    | none =>
      rw [applyInit, hi] at hcheck
      simp at hcheck
    | some v2 =>
      rw [applyInit, hi] at hcheck
      simp only [Option.map_some', Option.some_inj] at hcheck
      subst hcheck
      exact ⟨rfl, rfl, rfl, rfl⟩
  · rw [if_neg hm] at hcheck
    rw [if_neg hm]
    cases hi : initialiseer_vraag lijst r with
    | none =>
      rw [applyInit, hi] at hcheck
      simp at hcheck
    | some v2 =>
      rw [applyInit, hi] at hcheck
      simp only [Option.map_some', Option.some_inj] at hcheck
      subst hcheck
      exact ⟨rfl, rfl, rfl, rfl⟩

/-- Claim C3: in both quiz modes the streak counter increments by one on a
match against the correct answer (exact match in multiple choice, the
strip-and-lower match in free text) and resets to zero on any mismatch; the
answer sequence correct, correct, wrong, correct yields the running streak
values 1, 2, 0, 1. -/
theorem C3_reeks_teller :
    (∀ (st : SessionState) (v : VraagState) (g : String),
      st.vraagState = some v → g ≠ "Selecteer een optie" → st.beantwoord = false →
      ((g = v.juiste_antwoord →
        (beantwoord_mc g st).correcte_antwoorden = st.correcte_antwoorden + 1) ∧
       (g ≠ v.juiste_antwoord → (beantwoord_mc g st).correcte_antwoorden = 0))) ∧
    (∀ (lijst : List LoadedRow) (r : Randomness) (st st2 : SessionState) (v : VraagState),
      st.vraagState = some v → check_antwoord lijst r st = some st2 →
      ((pyLower (pyStrip st.expert_input) = pyLower (pyStrip v.juiste_antwoord) →
        st2.correcte_antwoorden = st.correcte_antwoorden + 1) ∧
       (pyLower (pyStrip st.expert_input) ≠ pyLower (pyStrip v.juiste_antwoord) →
        st2.correcte_antwoorden = 0))) ∧
    mcStreakRun [("a", "a"), ("a", "a"), ("b", "a"), ("a", "a")] = [1, 2, 0, 1] := by
  refine ⟨?_, ?_, by decide⟩
  · intro st v g hv hg hb
    constructor
    · intro heq
      subst heq
      simp [beantwoord_mc, hv, hg, hb]
    · intro hne
      simp [beantwoord_mc, hv, hg, hb, hne]
  · intro lijst r st st2 v hv hcheck
    have hfields := check_antwoord_velden lijst r st st2 v hv hcheck
    constructor
    · intro hm
      rw [hfields.1, if_pos hm]
    · intro hm
      rw [hfields.1, if_neg hm]

/-- The question record used by the concrete expert-mode witnesses. -/
def wVraag : VraagState :=
  { geselecteerde_plant := dummyRow
    vraagtypeNL := true
    vraag := ""
    opties := ["Selecteer een optie"]
    juiste_antwoord := "zomereik" }

/-- A concrete expert-mode session state with a typed answer pending. -/
def wSt : SessionState :=
  { correcte_antwoorden := 0
    beantwoord := false
    gekozen_optie := "Selecteer een optie"
    radiobutton_disabled := false
    expert_input := " ZOMEREIK "
    vraagState := some wVraag }

/-- The session state produced by check_antwoord on the concrete input. -/
def wUit : SessionState := (check_antwoord wLijst wRand wSt).getD wSt

theorem C3_reeks_teller_witness :
    (beantwoord_mc "a" (mcVraagStaat "a" 4)).correcte_antwoorden = 4 + 1 ∧
    wUit.correcte_antwoorden = wSt.correcte_antwoorden + 1 ∧
    mcStreakRun [("a", "a"), ("a", "a"), ("b", "a"), ("a", "a")] = [1, 2, 0, 1] :=
  ⟨(C3_reeks_teller.1 (mcVraagStaat "a" 4) _ "a" rfl (by decide) rfl).1 rfl,
   (C3_reeks_teller.2.1 wLijst wRand wSt wUit wVraag rfl (by decide)).1 (by decide),
   C3_reeks_teller.2.2⟩

/-- Claim C4: in free-text mode a typed answer is counted as a match exactly
when the two strings agree after stripping outer whitespace and lowercasing
both; the three example spellings all match the correct answer Quercus
robur. -/
theorem C4_expert_matching :
    (∀ (lijst : List LoadedRow) (r : Randomness) (st st2 : SessionState) (v : VraagState),
      st.vraagState = some v → check_antwoord lijst r st = some st2 →
      (st2.correcte_antwoorden = st.correcte_antwoorden + 1 ↔
        pyLower (pyStrip st.expert_input) = pyLower (pyStrip v.juiste_antwoord))) ∧
    pyLower (pyStrip "quercus robur") = pyLower (pyStrip "Quercus robur") ∧
    pyLower (pyStrip " Quercus Robur ") = pyLower (pyStrip "Quercus robur") ∧
    pyLower (pyStrip "QUERCUS ROBUR") = pyLower (pyStrip "Quercus robur") := by
  refine ⟨?_, by decide, by decide, by decide⟩
  intro lijst r st st2 v hv hcheck
  have hfields := check_antwoord_velden lijst r st st2 v hv hcheck
  constructor
  · intro heq
    by_contra hm
    rw [hfields.1, if_neg hm] at heq
    exact Nat.succ_ne_zero st.correcte_antwoorden heq.symm
  · intro hm
    rw [hfields.1, if_pos hm]

theorem C4_expert_matching_witness :
    (wUit.correcte_antwoorden = wSt.correcte_antwoorden + 1 ↔
      pyLower (pyStrip wSt.expert_input) = pyLower (pyStrip wVraag.juiste_antwoord)) ∧
    pyLower (pyStrip "quercus robur") = pyLower (pyStrip "Quercus robur") :=
  ⟨(C4_expert_matching.1 wLijst wRand wSt wUit wVraag rfl (by decide)),
   C4_expert_matching.2.1⟩

/-- Claim C10: in free-text mode, submitting any answer clears the input
field, leaves the answered flag false and stores a freshly initialised
question in the same step, so no intermediate answered state awaits a next
confirmation. -/
theorem C10_expert_doorgang (lijst : List LoadedRow) (r : Randomness)
    (st st2 : SessionState) (v : VraagState)
    (hv : st.vraagState = some v)
    (hcheck : check_antwoord lijst r st = some st2) :
    st2.expert_input = "" ∧
    st2.beantwoord = false ∧
    st2.vraagState = initialiseer_vraag lijst r :=
  (check_antwoord_velden lijst r st st2 v hv hcheck).2

theorem C10_expert_doorgang_witness :
    wUit.expert_input = "" ∧
    wUit.beantwoord = false ∧
    wUit.vraagState = initialiseer_vraag wLijst wRand :=
  C10_expert_doorgang wLijst wRand wSt wUit wVraag rfl (by decide)

/-! ## Claim C6: the filter pipeline -/

/-- Claim C6: filtering by a boolean category column keeps exactly the rows
whose cell in that column is the literal marker x, and applying the category
filter together with the family filter yields exactly the rows lying in both
individual filter results. -/
theorem C6_filter_semantiek (rows : List LoadedRow) (kolom fam : String)
    (hkolom : kolom ≠ "Alle planten") (hfam : fam ≠ "Alle") :
    (∀ l, l ∈ applyFilters rows kolom "Alle" ↔
      l ∈ rows ∧ heeftMarkering l kolom = true) ∧
    (∀ l, l ∈ applyFilters rows kolom fam ↔
      l ∈ applyFilters rows kolom "Alle" ∧
      l ∈ applyFilters rows "Alle planten" fam) := by
  constructor
  · intro l
    simp [applyFilters, hkolom, filterCategorie, List.mem_filter]
  · intro l
    simp [applyFilters, hkolom, hfam, filterCategorie, filterFamilie, List.mem_filter]
    tauto

/-- A row that carries no category marker, used by the filter witness. -/
def wRij2 : LoadedRow :=
  { wetenschappelijkeNaam := "Bellis perennis"
    nederlands := some "madeliefje"
    familie := some "Asteraceae"
    extraInfo := ""
    nummer := 4
    flags := [("Boom", none)] }

theorem C6_filter_semantiek_witness :
    wRij "Quercus robur" "zomereik" 1 ∈
      applyFilters [wRij "Quercus robur" "zomereik" 1, wRij2] "Boom" "Rosaceae" :=
  ((C6_filter_semantiek [wRij "Quercus robur" "zomereik" 1, wRij2] "Boom" "Rosaceae"
      (by decide) (by decide)).2 (wRij "Quercus robur" "zomereik" 1)).mpr
    ⟨by decide, by decide⟩

/-! ## Claim C7: the loader -/

/-- Claim C7: the loader silently drops exactly the rows whose sequence
number fails numeric coercion and returns the remaining transformed rows
sorted ascending by sequence number; as a total function it raises nothing. -/
theorem C7_loader_sorteert_en_dropt (rows : List RawRow) :
    List.Sorted nummerLe (load_planten_data rows) ∧
    List.Perm (load_planten_data rows)
      (rows.filterMap (fun r => (toNumeric r.nummer).map (transformRow r))) ∧
    (∀ l, l ∈ load_planten_data rows ↔
      ∃ r ∈ rows, toNumeric r.nummer = some l.nummer ∧ transformRow r l.nummer = l) := by
  refine ⟨List.sorted_insertionSort nummerLe _, List.perm_insertionSort nummerLe _, ?_⟩
  intro l
  rw [load_planten_data, (List.perm_insertionSort nummerLe _).mem_iff, List.mem_filterMap]
  constructor
  · rintro ⟨r, hr, hfr⟩
    rcases Option.map_eq_some'.mp hfr with ⟨n, hn, htr⟩
    subst htr
    exact ⟨r, hr, hn, rfl⟩
  · rintro ⟨r, hr, hn, htr⟩
    refine ⟨r, hr, ?_⟩
    rw [hn, Option.map_some', htr]

/-! ## Claim C8: the family prefix on the note field -/

/-- Claim C8: a raw row with a present family and a present note that
survives the numeric drop appears in the loaded table, and its transformed
note field is the prefix Familie: followed by the family name, a period and
the original note text. -/
theorem C8_familie_voorvoegsel (rows : List RawRow) (r : RawRow) (n : Int) (f e : String)
    (hr : r ∈ rows) (hn : toNumeric r.nummer = some n)
    (hf : r.familie = some f) (he : r.extraInfo = some e) :
    transformRow r n ∈ load_planten_data rows ∧
    (transformRow r n).extraInfo = "Familie: " ++ f ++ "." ++ " " ++ e := by
  constructor
  · rw [load_planten_data, (List.perm_insertionSort nummerLe _).mem_iff, List.mem_filterMap]
    refine ⟨r, hr, ?_⟩
    rw [hn, Option.map_some']
  · show append_familie_to_extra_info r.familie r.extraInfo = _
    rw [hf, he]
    rfl

theorem C8_familie_voorvoegsel_witness :
    transformRow rC2w 1 ∈ load_planten_data [rC2w] ∧
    (transformRow rC2w 1).extraInfo =
      "Familie: " ++ "Fagaceae" ++ "." ++ " " ++ "Bloeit in mei." :=
  C8_familie_voorvoegsel [rC2w] rC2w 1 "Fagaceae" "Bloeit in mei."
    (List.mem_singleton_self rC2w) rfl rfl rfl

/-! ## Claim C9: the practice-mode cursor -/

/-- Claim C9: on a non-empty filtered list of length n the cursor stays in
the range 0 to n minus 1: the next-plant step increments the cursor below the
last position and wraps it to zero at the last position. -/
theorem C9_oefen_cursor (n idx : Nat) (hn : 0 < n) (hidx : idx < n) :
    volgende_plant n idx < n ∧
    (idx < n - 1 → volgende_plant n idx = idx + 1) ∧
    (idx = n - 1 → volgende_plant n idx = 0) := by
  refine ⟨?_, ?_, ?_⟩
  · by_cases h : idx < n - 1
    · rw [volgende_plant, if_pos h]
      omega
    · rw [volgende_plant, if_neg h]
      omega
  · intro h
    rw [volgende_plant, if_pos h]
  · intro h
    rw [volgende_plant, if_neg (by omega)]

theorem C9_oefen_cursor_witness :
    volgende_plant 3 1 < 3 ∧ volgende_plant 3 1 = 1 + 1 ∧ volgende_plant 3 2 = 0 :=
  ⟨(C9_oefen_cursor 3 1 (by decide) (by decide)).1,
   (C9_oefen_cursor 3 1 (by decide) (by decide)).2.1 (by decide),
   (C9_oefen_cursor 3 2 (by decide) (by decide)).2.2 (by decide)⟩
